import Mathlib

/-!
Shallow embedding of `src/ecommerce_app.py`: a synthetic e-commerce data
generator (`load_data`), a left join of sales events to customers
(`merged_df`), a filter stage driven by a date interval and three
multi-select sets (`filtered_df`), and the aggregation stage (KPIs and the
per-category revenue group-by).

Modelling conventions:
* numpy's seeded global PRNG is abstracted as a draw stream `RNG = Nat → Nat`;
  every call to `randint`/`uniform`/`choice` consumes one stream position and
  maps it into the call's range with `%`.  The probability weights `p=[...]`
  of `np.random.choice` only shape the distribution, never the support, so a
  weighted choice is embedded as an indexed draw into its candidate list.
* calendar dates are day indices: the sales range 2023-01-01..2023-12-31 is
  `0..364` (365 days); the customer join-date range 2022-01-01..2023-01-01
  has 366 entries, modelled as `0..365`.
* floats (`Price`, `Discount`, `Revenue`) are modelled as `ℚ`;
  `np.random.uniform(100, 2000)` is an integer-granularity draw into
  `[100, 1999]`, which is all the claims need (no claim concerns the
  distribution of prices).
-/

namespace Ecomm

/-- A draw stream: the sequence of raw values numpy's PRNG would produce
after `np.random.seed(42)`.  A fixed seed determines one such stream. -/
def RNG : Type := Nat → Nat

/-- `products = ['Laptop', 'Phone', 'Tablet', 'Headphones', 'Smartwatch', 'Camera']` -/
def products : List String :=
  ["Laptop", "Phone", "Tablet", "Headphones", "Smartwatch", "Camera"]

/-- `categories = ['Electronics', 'Electronics', 'Electronics', 'Accessories', 'Accessories', 'Electronics']` -/
def categories : List String :=
  ["Electronics", "Electronics", "Electronics", "Accessories", "Accessories", "Electronics"]

/-- `regions = ['North', 'South', 'East', 'West']` -/
def regions : List String := ["North", "South", "East", "West"]

/-- The candidate list of `np.random.choice([0, 0.05, 0.1, 0.15, 0.2], p=...)`. -/
def discountChoices : List ℚ := [0, 1/20, 1/10, 3/20, 1/5]

/-- One row of the sales dataframe built in `load_data`. -/
structure SalesRow where
  Date : Nat
  Product : String
  Category : String
  Price : ℚ
  Quantity : Nat
  Revenue : ℚ
  Discount : ℚ
  Region : String
  CustomerID : Nat
deriving DecidableEq

/-- One row of the customer dataframe built in `load_data`. -/
structure CustomerRow where
  CustomerID : Nat
  Age : Nat
  Gender : String
  JoinDate : Nat
  LoyaltyTier : String
deriving DecidableEq

/-- The candidate list of `np.random.choice(['Bronze', 'Silver', 'Gold'], p=...)`. -/
def loyaltyTiers : List String := ["Bronze", "Silver", "Gold"]

/-- One iteration of the inner event loop of `load_data` (lines 29-45):
six consecutive draws build the record appended for the day `date`. -/
def mkEvent (g : RNG) (i : Nat) (date : Nat) : SalesRow :=
  let productIdx := g i % 6
  let price : ℚ := 100 + (g (i + 1) % 1900 : Nat)
  let quantity : Nat := 1 + g (i + 2) % 2
  let region := regions.getD (g (i + 3) % 4) ""
  let discount := discountChoices.getD (g (i + 4) % 5) 0
  { Date := date
    Product := products.getD productIdx ""
    Category := categories.getD productIdx ""
    Price := price
    Quantity := quantity
    Revenue := price * (quantity : ℚ) * (1 - discount)
    Discount := discount
    Region := region
    CustomerID := 1000 + g (i + 5) % 8999 }

/-- The events of one day: `np.random.randint(5, 20)` (a value in `[5, 19]`)
picks the count, then each event consumes six draws. -/
def genDay (g : RNG) (i : Nat) (date : Nat) : List SalesRow × Nat :=
  let n := 5 + g i % 15
  ((List.range n).map (fun k => mkEvent g (i + 1 + 6 * k) date), i + 1 + 6 * n)

/-- The outer loop of `load_data` over the day range: `k` remaining days
starting at day `date`, with the draw stream at position `i`.  Returns the
accumulated rows and the final stream position. -/
def genSalesAux (g : RNG) : Nat → Nat → Nat → List SalesRow × Nat
  | 0, _, i => ([], i)
  | k + 1, date, i =>
    let day := genDay g i date
    let rest := genSalesAux g k (date + 1) day.2
    (day.1 ++ rest.1, rest.2)

/-- First-occurrence deduplication with a seen accumulator: the order-and-
multiplicity behaviour of pandas `Series.unique()`. -/
def puniqAux {α : Type} [DecidableEq α] (seen : List α) : List α → List α
  | [] => []
  | a :: l => if a ∈ seen then puniqAux seen l else a :: puniqAux (a :: seen) l

/-- `df['CustomerID'].unique()`: distinct values in first-occurrence order. -/
def puniq {α : Type} [DecidableEq α] (l : List α) : List α := puniqAux [] l

/-- One iteration of the customer loop of `load_data` (lines 52-59):
four consecutive draws build the record for customer `cid`. -/
def mkCustomer (g : RNG) (i : Nat) (cid : Nat) : CustomerRow :=
  { CustomerID := cid
    Age := 18 + g i % 52
    Gender := (["Male", "Female"]).getD (g (i + 1) % 2) ""
    JoinDate := g (i + 2) % 366
    LoyaltyTier := loyaltyTiers.getD (g (i + 3) % 3) "" }

/-- The customer loop over the distinct CustomerIDs, continuing the same
draw stream. -/
def genCustomers (g : RNG) : Nat → List Nat → List CustomerRow
  | _, [] => []
  | i, cid :: rest => mkCustomer g i cid :: genCustomers g (i + 4) rest

/-- `load_data()`: the sales dataframe over the fixed 365-day range and the
customer dataframe generated from its distinct CustomerIDs. -/
def load_data (g : RNG) : List SalesRow × List CustomerRow :=
  let res := genSalesAux g 365 0 0
  (res.1, genCustomers g res.2 (puniq (res.1.map SalesRow.CustomerID)))

/-- A row of the merged dataframe: sales columns plus the customer columns,
which are `none` exactly when the left join found no matching customer
(pandas fills them with NaN). -/
structure MergedRow where
  Date : Nat
  Product : String
  Category : String
  Price : ℚ
  Quantity : Nat
  Revenue : ℚ
  Discount : ℚ
  Region : String
  CustomerID : Nat
  Age : Option Nat
  Gender : Option String
  JoinDate : Option Nat
  LoyaltyTier : Option String
deriving DecidableEq

/-- Assemble one merged row from a sales row and an optional matched customer. -/
def mergeRow (s : SalesRow) (c : Option CustomerRow) : MergedRow :=
  { Date := s.Date, Product := s.Product, Category := s.Category
    Price := s.Price, Quantity := s.Quantity, Revenue := s.Revenue
    Discount := s.Discount, Region := s.Region, CustomerID := s.CustomerID
    Age := c.map CustomerRow.Age, Gender := c.map CustomerRow.Gender
    JoinDate := c.map CustomerRow.JoinDate
    LoyaltyTier := c.map CustomerRow.LoyaltyTier }

/-- `pd.merge(sales_df, customer_df, on='CustomerID', how='left')`: each
sales row is paired with every matching customer row, or kept once with
empty customer fields when no customer matches. -/
def merge : List SalesRow → List CustomerRow → List MergedRow
  | [], _ => []
  | s :: rest, custs =>
    (let ms := custs.filter (fun c => decide (c.CustomerID = s.CustomerID))
     if ms.isEmpty then [mergeRow s none]
     else ms.map (fun c => mergeRow s (some c)))
    ++ merge rest custs

/-- `merged_df` of line 68 for the tables generated from stream `g`. -/
def merged_df (g : RNG) : List MergedRow :=
  merge (load_data g).1 (load_data g).2

/-- Lines 79-84: when the UI date-range value has exactly two entries the
rows are restricted to `start ≤ Date ≤ end`, otherwise the table is kept
unchanged (`merged_df.copy()`). -/
def date_filter (df : List MergedRow) (dr : List Nat) : List MergedRow :=
  if dr.length = 2 then
    df.filter (fun r => decide (dr.getD 0 0 ≤ r.Date) && decide (r.Date ≤ dr.getD 1 0))
  else df

/-- Lines 105-109: one combined mask of the three `isin` predicates. -/
def apply_filters (df : List MergedRow) (cats prods regs : List String) :
    List MergedRow :=
  df.filter (fun r =>
    decide (r.Category ∈ cats) && decide (r.Product ∈ prods) &&
    decide (r.Region ∈ regs))

/-- The whole filter stage: the date predicate (lines 79-84) then the three
membership predicates (lines 105-109). -/
def filtered_df (df : List MergedRow) (dr : List Nat)
    (cats prods regs : List String) : List MergedRow :=
  apply_filters (date_filter df dr) cats prods regs

/-- Line 121: `filtered_df['Revenue'].sum()`. -/
def total_revenue (df : List MergedRow) : ℚ := (df.map MergedRow.Revenue).sum

/-- Line 125: `len(filtered_df)`. -/
def total_orders (df : List MergedRow) : Nat := df.length

/-- Line 129: `total_revenue / total_orders if total_orders > 0 else 0`. -/
def avg_order_value (df : List MergedRow) : ℚ :=
  if 0 < total_orders df then total_revenue df / (total_orders df : ℚ) else 0

/-- Line 176: `filtered_df.groupby('Category')['Revenue'].sum()`, as the
list of (distinct category, summed revenue) pairs. -/
def category_revenue (df : List MergedRow) : List (String × ℚ) :=
  (puniq (df.map MergedRow.Category)).map
    (fun c => (c, ((df.filter (fun r => decide (r.Category = c))).map
      MergedRow.Revenue).sum))

/-- The all-zero draw stream, used to instantiate universally quantified
theorems at a concrete input. -/
def zeroRNG : RNG := fun _ => 0

/-- A concrete merged row for concrete instantiations. -/
def sampleRow : MergedRow := mergeRow (mkEvent zeroRNG 1 0) none

/-- Claim C1: the average-order-value KPI is total revenue divided by the
number of filtered rows when that number is positive, and exactly 0 when
the filtered table has zero rows; the empty case is total (no division
error is possible). -/
theorem avg_order_value_spec (df : List MergedRow) :
    (0 < total_orders df →
      avg_order_value df = total_revenue df / (total_orders df : ℚ)) ∧
    (total_orders df = 0 → avg_order_value df = 0) := by
  constructor
  · intro h
    simp [avg_order_value, h]
  · intro h
    simp [avg_order_value, h]

/-- Witness for C1 at a concrete one-row table. -/
theorem avg_order_value_spec_witness :
    avg_order_value [sampleRow] =
      total_revenue [sampleRow] / (total_orders [sampleRow] : ℚ) :=
  (avg_order_value_spec [sampleRow]).1 (by decide)

/-- Claim C2: for every joined table, date interval `[s, e]` and triple of
selection sets, the filter stage keeps exactly the rows whose `Date` lies
in `[s, e]` inclusive and whose `Category`, `Product`, `Region` each lie in
the corresponding selected set; an empty selection set gives an empty
result. -/
theorem filtered_df_characterization (df : List MergedRow) (s e : Nat)
    (cats prods regs : List String) :
    (filtered_df df [s, e] cats prods regs =
      df.filter (fun r =>
        decide (s ≤ r.Date) && decide (r.Date ≤ e) &&
        (decide (r.Category ∈ cats) && decide (r.Product ∈ prods) &&
          decide (r.Region ∈ regs)))) ∧
    (∀ r, r ∈ filtered_df df [s, e] cats prods regs ↔
      r ∈ df ∧ (s ≤ r.Date ∧ r.Date ≤ e) ∧
        r.Category ∈ cats ∧ r.Product ∈ prods ∧ r.Region ∈ regs) ∧
    (cats = [] ∨ prods = [] ∨ regs = [] →
      filtered_df df [s, e] cats prods regs = []) := by
  have hdf : filtered_df df [s, e] cats prods regs =
      df.filter (fun r =>
        decide (s ≤ r.Date) && decide (r.Date ≤ e) &&
        (decide (r.Category ∈ cats) && decide (r.Product ∈ prods) &&
          decide (r.Region ∈ regs))) := by
    simp only [filtered_df, date_filter, apply_filters, List.length_cons,
      List.length_nil, if_pos, List.filter_filter]
    refine List.filter_congr ?_
    intro r _
    simp only [List.getD_cons_zero, List.getD_cons_succ]
    exact Bool.and_comm _ _
  have hmem : ∀ r, r ∈ filtered_df df [s, e] cats prods regs ↔
      r ∈ df ∧ (s ≤ r.Date ∧ r.Date ≤ e) ∧
        r.Category ∈ cats ∧ r.Product ∈ prods ∧ r.Region ∈ regs := by
    intro r
    rw [hdf]
    simp [List.mem_filter, and_assoc]
  refine ⟨hdf, hmem, ?_⟩
  intro hempty
  apply List.eq_nil_iff_forall_not_mem.mpr
  intro r hr
  rcases (hmem r).mp hr with ⟨-, -, hc, hp, hg⟩
  rcases hempty with h | h | h <;> subst h <;> simp_all

/-- Witness for C2: an empty category selection empties a concrete one-row
table. -/
theorem filtered_df_characterization_witness :
    filtered_df [sampleRow] [0, 364] [] products regions = [] :=
  (filtered_df_characterization [sampleRow] 0 364 [] products regions).2.2
    (Or.inl rfl)

/-- Claim C10: when the UI date-range value does not hold exactly two
dates, the date predicate is skipped (the date-filtered table is the full
joined table) and only the three membership predicates apply. -/
theorem date_filter_skipped (df : List MergedRow) (dr : List Nat)
    (cats prods regs : List String) (h : dr.length ≠ 2) :
    date_filter df dr = df ∧
    filtered_df df dr cats prods regs = apply_filters df cats prods regs := by
  have hd : date_filter df dr = df := by simp [date_filter, h]
  exact ⟨hd, by rw [filtered_df, hd]⟩

/-- Witness for C10 at a one-date range. -/
theorem date_filter_skipped_witness :
    date_filter [sampleRow] [3] = [sampleRow] ∧
    filtered_df [sampleRow] [3] [] products regions =
      apply_filters [sampleRow] [] products regions :=
  date_filter_skipped [sampleRow] [3] [] products regions (by decide)

/-- Membership in the accumulator-based dedup: an element is kept iff it is
in the input and not already seen. -/
lemma mem_puniqAux {α : Type} [DecidableEq α] (seen l : List α) (x : α) :
    x ∈ puniqAux seen l ↔ x ∈ l ∧ x ∉ seen := by
  induction l generalizing seen with
  | nil => simp [puniqAux]
  | cons a l ih =>
    by_cases h : a ∈ seen
    · rw [puniqAux, if_pos h, ih]
      by_cases hx : x = a
      · subst hx; simp [h]
      · simp [hx]
    · rw [puniqAux, if_neg h]
      by_cases hx : x = a
      · subst hx; simp [h]
      · simp only [List.mem_cons, hx, false_or, ih]

/-- The accumulator-based dedup has no duplicates. -/
lemma nodup_puniqAux {α : Type} [DecidableEq α] (seen l : List α) :
    (puniqAux seen l).Nodup := by
  induction l generalizing seen with
  | nil => simp [puniqAux]
  | cons a l ih =>
    by_cases h : a ∈ seen
    · rw [puniqAux, if_pos h]; exact ih seen
    · rw [puniqAux, if_neg h]
      refine List.nodup_cons.mpr ⟨?_, ih (a :: seen)⟩
      intro hmem
      exact ((mem_puniqAux _ _ _).mp hmem).2 (List.mem_cons_self a seen)

/-- `Series.unique()` preserves membership. -/
lemma mem_puniq {α : Type} [DecidableEq α] (l : List α) (x : α) :
    x ∈ puniq l ↔ x ∈ l := by
  simp [puniq, mem_puniqAux]

/-- `Series.unique()` yields pairwise-distinct values. -/
lemma nodup_puniq {α : Type} [DecidableEq α] (l : List α) : (puniq l).Nodup :=
  nodup_puniqAux [] l

/-- The customer loop emits exactly one record per id, in order. -/
lemma genCustomers_map_id (g : RNG) (i : Nat) (ids : List Nat) :
    (genCustomers g i ids).map CustomerRow.CustomerID = ids := by
  induction ids generalizing i with
  | nil => rfl
  | cons c ids ih => simp [genCustomers, mkCustomer, ih]

/-- The customer table's id column is the deduplicated sales id column. -/
lemma customer_ids_eq (g : RNG) :
    ((load_data g).2).map CustomerRow.CustomerID
      = puniq (((load_data g).1).map SalesRow.CustomerID) := by
  simp [load_data, genCustomers_map_id]

/-- Every merged row of a join whose left ids are all covered carries
non-empty customer fields. -/
lemma merge_all_matched (sales : List SalesRow) (custs : List CustomerRow)
    (hcover : ∀ s ∈ sales, ∃ c ∈ custs, c.CustomerID = s.CustomerID) :
    ∀ m ∈ merge sales custs,
      m.Age.isSome ∧ m.Gender.isSome ∧ m.JoinDate.isSome ∧
        m.LoyaltyTier.isSome := by
  induction sales with
  | nil => intro m hm; simp [merge] at hm
  | cons s rest ih =>
    intro m hm
    simp only [merge] at hm
    rcases List.mem_append.mp hm with hm | hm
    · rcases hcover s (List.mem_cons_self _ _) with ⟨c, hc, hcid⟩
      have hne : (custs.filter fun c => decide (c.CustomerID = s.CustomerID)) ≠ [] :=
        List.ne_nil_of_mem (List.mem_filter.mpr ⟨hc, by simp [hcid]⟩)
      cases hms : custs.filter (fun c => decide (c.CustomerID = s.CustomerID)) with
      | nil => exact absurd hms hne
      | cons c0 cs =>
        rw [hms] at hm
        simp only [List.isEmpty_cons, Bool.false_eq_true, if_false,
          List.mem_map] at hm
        rcases hm with ⟨c1, -, rfl⟩
        simp [mergeRow]
    · exact ih (fun s' hs' => hcover s' (List.mem_cons_of_mem _ hs')) m hm

/-- The first event of day 0 belongs to any run with at least one day. -/
lemma mem_genSalesAux_head (g : RNG) (k date i : Nat) :
    mkEvent g (i + 1) date ∈ (genSalesAux g (k + 1) date i).1 := by
  simp only [genSalesAux]
  apply List.mem_append_left
  simp only [genDay]
  refine List.mem_map.mpr ⟨0, List.mem_range.mpr (by omega), by norm_num⟩

/-- The first generated event of the sales table. -/
lemma mem_load_data_head (g : RNG) : mkEvent g 1 0 ∈ (load_data g).1 := by
  show mkEvent g 1 0 ∈ (genSalesAux g 365 0 0).1
  exact mem_genSalesAux_head g 364 0 0

/-- Claim C6: in the generated customer table every CustomerID appears in
exactly one record: the id column is pairwise distinct. -/
theorem customer_ids_nodup (g : RNG) :
    (((load_data g).2).map CustomerRow.CustomerID).Nodup := by
  rw [customer_ids_eq]
  exact nodup_puniq _

/-- Claim C5: the generated customer table covers every distinct CustomerID
of the sales table, so the left join matches every sales row and no merged
row carries empty customer fields. -/
theorem customers_cover_sales (g : RNG) :
    (∀ s ∈ (load_data g).1, ∃ c ∈ (load_data g).2,
      c.CustomerID = s.CustomerID) ∧
    (∀ m ∈ merged_df g,
      m.Age.isSome ∧ m.Gender.isSome ∧ m.JoinDate.isSome ∧
        m.LoyaltyTier.isSome) := by
  have hcover : ∀ s ∈ (load_data g).1, ∃ c ∈ (load_data g).2,
      c.CustomerID = s.CustomerID := by
    intro s hs
    have hid : s.CustomerID ∈ ((load_data g).2).map CustomerRow.CustomerID := by
      rw [customer_ids_eq, mem_puniq]
      exact List.mem_map_of_mem _ hs
    rcases List.mem_map.mp hid with ⟨c, hc, hcid⟩
    exact ⟨c, hc, hcid⟩
  exact ⟨hcover, merge_all_matched _ _ hcover⟩

/-- Witness for C5: the first generated sales event has a matching customer
record. -/
theorem customers_cover_sales_witness :
    ∃ c ∈ (load_data zeroRNG).2,
      c.CustomerID = (mkEvent zeroRNG 1 0).CustomerID :=
  (customers_cover_sales zeroRNG).1 (mkEvent zeroRNG 1 0)
    (mem_load_data_head zeroRNG)

/-- Sums distribute over pointwise addition of mapped functions. -/
lemma list_sum_map_add {α : Type} (l : List α) (f h : α → ℚ) :
    (l.map (fun x => f x + h x)).sum = (l.map f).sum + (l.map h).sum := by
  induction l with
  | nil => simp
  | cons a l ih => simp only [List.map_cons, List.sum_cons, ih]; ring

/-- A single-hit indicator sums to zero over keys that miss `c`. -/
lemma sum_ite_notmem (c : String) (v : ℚ) (ks : List String) (hc : c ∉ ks) :
    (ks.map (fun k => if c = k then v else 0)).sum = 0 := by
  induction ks with
  | nil => simp
  | cons k ks ih =>
    simp only [List.mem_cons, not_or] at hc
    simp [hc.1, ih hc.2]

/-- A single-hit indicator sums to its value over a duplicate-free key list
containing `c`. -/
lemma sum_ite_single (c : String) (v : ℚ) (ks : List String)
    (hnd : ks.Nodup) (hc : c ∈ ks) :
    (ks.map (fun k => if c = k then v else 0)).sum = v := by
  induction ks with
  | nil => simp at hc
  | cons k ks ih =>
    rcases List.nodup_cons.mp hnd with ⟨hk, hnd'⟩
    by_cases h : c = k
    · subst h
      simp [sum_ite_notmem c v ks hk]
    · rcases List.mem_cons.mp hc with h' | h'
      · exact absurd h' h
      · simp [h, ih hnd' h']

/-- Group-by partition: summing the per-key filtered revenue over a
duplicate-free key list covering every row recovers the total revenue. -/
lemma sum_filter_groups (ks : List String) (hnd : ks.Nodup)
    (df : List MergedRow) (hmem : ∀ r ∈ df, r.Category ∈ ks) :
    (ks.map (fun k => ((df.filter (fun r => decide (r.Category = k))).map
        MergedRow.Revenue).sum)).sum
      = (df.map MergedRow.Revenue).sum := by
  induction df with
  | nil => simp
  | cons r df ih =>
    have hstep : ∀ k : String,
        (((r :: df).filter (fun x => decide (x.Category = k))).map
            MergedRow.Revenue).sum
          = (if r.Category = k then r.Revenue else 0)
            + ((df.filter (fun x => decide (x.Category = k))).map
                MergedRow.Revenue).sum := by
      intro k
      by_cases h : r.Category = k
      · simp [List.filter_cons, h]
      · simp [List.filter_cons, h]
    simp only [hstep]
    rw [list_sum_map_add,
      sum_ite_single r.Category r.Revenue ks hnd (hmem r (List.mem_cons_self _ _)),
      ih (fun x hx => hmem x (List.mem_cons_of_mem _ hx))]
    simp

/-- Claim C4: the per-category revenue aggregation sums to the total
revenue of the filtered table. -/
theorem category_revenue_total (df : List MergedRow) :
    ((category_revenue df).map Prod.snd).sum = total_revenue df := by
  have h : (category_revenue df).map Prod.snd
      = (puniq (df.map MergedRow.Category)).map
          (fun c => ((df.filter (fun r => decide (r.Category = c))).map
            MergedRow.Revenue).sum) := by
    simp [category_revenue, List.map_map, Function.comp_def]
  rw [h, total_revenue]
  exact sum_filter_groups _ (nodup_puniq _) df
    (fun r hr => (mem_puniq _ _).mpr (List.mem_map_of_mem _ hr))

/-- Every event of a day batch carries that day's date. -/
lemma genDay_dates (g : RNG) (i date : Nat) :
    ∀ r ∈ (genDay g i date).1, r.Date = date := by
  intro r hr
  simp only [genDay, List.mem_map] at hr
  rcases hr with ⟨k, -, rfl⟩
  rfl

/-- A day batch holds `5 + (draw % 15)` events, the embedded
`np.random.randint(5, 20)`. -/
lemma genDay_length (g : RNG) (i date : Nat) :
    (genDay g i date).1.length = 5 + g i % 15 := by
  simp [genDay]

/-- Every generated event's date falls inside the generated day window. -/
lemma genSalesAux_date_bounds (g : RNG) :
    ∀ (k date i : Nat), ∀ r ∈ (genSalesAux g k date i).1,
      date ≤ r.Date ∧ r.Date < date + k := by
  intro k
  induction k with
  | zero => intro date i r hr; simp [genSalesAux] at hr
  | succ k ih =>
    intro date i r hr
    simp only [genSalesAux] at hr
    rcases List.mem_append.mp hr with h | h
    · have := genDay_dates g i date r h
      omega
    · have := ih (date + 1) _ r h
      omega

/-- Each day inside the generated window receives between 5 and 20 events
(in fact between 5 and 19). -/
lemma genSalesAux_day_count (g : RNG) :
    ∀ (k date i d : Nat), date ≤ d → d < date + k →
      5 ≤ ((genSalesAux g k date i).1.filter
            (fun r => decide (r.Date = d))).length ∧
        ((genSalesAux g k date i).1.filter
            (fun r => decide (r.Date = d))).length ≤ 20 := by
  intro k
  induction k with
  | zero => intro date i d h1 h2; omega
  | succ k ih =>
    intro date i d h1 h2
    simp only [genSalesAux, List.filter_append, List.length_append]
    by_cases hd : d = date
    · subst hd
      have hday : (genDay g i d).1.filter (fun r => decide (r.Date = d))
          = (genDay g i d).1 := by
        apply List.filter_eq_self.mpr
        intro r hr
        simp [genDay_dates g i d r hr]
      have hrest : ((genSalesAux g k (d + 1) (genDay g i d).2).1.filter
          (fun r => decide (r.Date = d))) = [] := by
        apply List.filter_eq_nil_iff.mpr
        intro r hr
        have := genSalesAux_date_bounds g k (d + 1) _ r hr
        simp only [decide_eq_true_eq]
        omega
      rw [hday, hrest]
      have hmod : g i % 15 < 15 := Nat.mod_lt _ (by norm_num)
      simp only [genDay_length, List.length_nil]
      omega
    · have hday : (genDay g i date).1.filter (fun r => decide (r.Date = d))
          = [] := by
        apply List.filter_eq_nil_iff.mpr
        intro r hr
        have := genDay_dates g i date r hr
        simp only [decide_eq_true_eq]
        omega
      have hrest := ih (date + 1) (genDay g i date).2 d (by omega) (by omega)
      rw [hday]
      simpa using hrest

/-- Claim C7: for every day of the fixed 365-day generation range, the
number of sales events generated on that day lies between 5 and 20
inclusive (the drawn count lives in `[5, 19] ⊆ [5, 20]`). -/
theorem day_event_count (g : RNG) (d : Nat) (hd : d < 365) :
    5 ≤ (((load_data g).1).filter (fun r => decide (r.Date = d))).length ∧
      (((load_data g).1).filter (fun r => decide (r.Date = d))).length ≤ 20 :=
  genSalesAux_day_count g 365 0 0 d (Nat.zero_le d) (by omega)

/-- Witness for C7 at the first day of a concrete stream. -/
theorem day_event_count_witness :
    5 ≤ (((load_data zeroRNG).1).filter
          (fun r => decide (r.Date = 0))).length ∧
      (((load_data zeroRNG).1).filter
          (fun r => decide (r.Date = 0))).length ≤ 20 :=
  day_event_count zeroRNG 0 (by norm_num)

/-- Claim C8: the generator is deterministic — two runs over equal draw
streams (the situation created by a fixed seed) produce identical sales
and customer tables, every field of every row equal. -/
theorem load_data_deterministic (g g' : RNG) (h : ∀ n, g n = g' n) :
    load_data g = load_data g' := by
  rw [funext h]

/-- Witness for C8 on a concrete stream. -/
theorem load_data_deterministic_witness :
    load_data zeroRNG = load_data zeroRNG :=
  load_data_deterministic zeroRNG zeroRNG (fun _ => rfl)

/-- Every generated row is some `mkEvent`. -/
lemma mem_genSalesAux_shape (g : RNG) :
    ∀ (k date i : Nat), ∀ r ∈ (genSalesAux g k date i).1,
      ∃ j d, r = mkEvent g j d := by
  intro k
  induction k with
  | zero => intro date i r hr; simp [genSalesAux] at hr
  | succ k ih =>
    intro date i r hr
    simp only [genSalesAux] at hr
    rcases List.mem_append.mp hr with h | h
    · simp only [genDay, List.mem_map] at h
      rcases h with ⟨j, -, rfl⟩
      exact ⟨_, _, rfl⟩
    · exact ih _ _ r h

/-- An event's (Product, Category) pair is one of six allowed pairs: the
two columns are read off the same drawn index. -/
lemma mkEvent_product_category (g : RNG) (i d : Nat) :
    ((mkEvent g i d).Product, (mkEvent g i d).Category)
      ∈ products.zip categories := by
  have h6 : g i % 6 < 6 := Nat.mod_lt _ (by norm_num)
  have hall : ∀ m : Nat, m < 6 →
      (products.getD m "", categories.getD m "") ∈ products.zip categories := by
    decide
  exact hall _ h6

/-- An event's Category, Product and Region are drawn from the fixed
candidate lists. -/
lemma mkEvent_fields (g : RNG) (i d : Nat) :
    (mkEvent g i d).Category ∈ categories ∧
      (mkEvent g i d).Product ∈ products ∧
      (mkEvent g i d).Region ∈ regions := by
  have h6 : g i % 6 < 6 := Nat.mod_lt _ (by norm_num)
  have h4 : g (i + 3) % 4 < 4 := Nat.mod_lt _ (by norm_num)
  refine ⟨?_, ?_, ?_⟩
  · have hall : ∀ m : Nat, m < 6 → categories.getD m "" ∈ categories := by decide
    exact hall _ h6
  · have hall : ∀ m : Nat, m < 6 → products.getD m "" ∈ products := by decide
    exact hall _ h6
  · have hall : ∀ m : Nat, m < 4 → regions.getD m "" ∈ regions := by decide
    exact hall _ h4

/-- Claim C9: in every generated sales event, Category is determined by
Product under the fixed product-to-category table: the row's pair is one
of the six pairs read off `products` and `categories` at the same index
(Laptop/Phone/Tablet/Camera ↦ Electronics, Headphones/Smartwatch ↦
Accessories), and no other pairing occurs. -/
theorem product_determines_category (g : RNG) (r : SalesRow)
    (hr : r ∈ (load_data g).1) :
    (r.Product, r.Category) ∈ products.zip categories := by
  rcases mem_genSalesAux_shape g 365 0 0 r hr with ⟨j, d, rfl⟩
  exact mkEvent_product_category g j d

/-- Witness for C9 at the first generated event. -/
theorem product_determines_category_witness :
    ((mkEvent zeroRNG 1 0).Product, (mkEvent zeroRNG 1 0).Category)
      ∈ products.zip categories :=
  product_determines_category zeroRNG (mkEvent zeroRNG 1 0)
    (mem_load_data_head zeroRNG)

/-- Every merged row is a sales row paired with an optional customer. -/
lemma merge_shape (sales : List SalesRow) (custs : List CustomerRow) :
    ∀ m ∈ merge sales custs, ∃ s ∈ sales, ∃ co, m = mergeRow s co := by
  induction sales with
  | nil => intro m hm; simp [merge] at hm
  | cons s rest ih =>
    intro m hm
    simp only [merge] at hm
    rcases List.mem_append.mp hm with h | h
    · split at h
      · exact ⟨s, List.mem_cons_self _ _, none, by simpa using h⟩
      · rcases List.mem_map.mp h with ⟨c, -, rfl⟩
        exact ⟨s, List.mem_cons_self _ _, some c, rfl⟩
    · rcases ih m h with ⟨s', hs', co, rfl⟩
      exact ⟨s', List.mem_cons_of_mem _ hs', co, rfl⟩

/-- Every row of the joined table has in-range attribute values: category,
product and region from the fixed lists, and a date inside the 365-day
generation window. -/
lemma merged_df_fields (g : RNG) :
    ∀ m ∈ merged_df g, m.Category ∈ categories ∧ m.Product ∈ products ∧
      m.Region ∈ regions ∧ m.Date < 365 := by
  intro m hm
  rcases merge_shape _ _ m hm with ⟨s, hs, co, rfl⟩
  rcases mem_genSalesAux_shape g 365 0 0 s hs with ⟨j, d, rfl⟩
  have hb := genSalesAux_date_bounds g 365 0 0 (mkEvent g j d) hs
  have hf := mkEvent_fields g j d
  refine ⟨hf.1, hf.2.1, hf.2.2, ?_⟩
  have hDate : (mergeRow (mkEvent g j d) co).Date = (mkEvent g j d).Date := rfl
  omega

/-- Claim C3: filtering with the full category, product and region lists
and a date interval covering the whole generated range (`[0, 364]`)
returns the joined table unchanged. -/
theorem filter_full_identity (g : RNG) :
    filtered_df (merged_df g) [0, 364] categories products regions
      = merged_df g := by
  have hfields := merged_df_fields g
  have hdate : date_filter (merged_df g) [0, 364] = merged_df g := by
    have h2 : ([0, 364] : List Nat).length = 2 := rfl
    rw [date_filter, if_pos h2]
    apply List.filter_eq_self.mpr
    intro r hr
    have hd := (hfields r hr).2.2.2
    simp only [List.getD_cons_zero, List.getD_cons_succ, Bool.and_eq_true,
      decide_eq_true_eq]
    omega
  rw [filtered_df, hdate]
  apply List.filter_eq_self.mpr
  intro r hr
  rcases hfields r hr with ⟨h1, h2, h3, -⟩
  simp [h1, h2, h3]

end Ecomm
